import Mathlib

/-!
# Verification of the krest request-execution core

Shallow embedding of the krest HTTP client library (package `krest`):
the request executor `makeRequest`, the middleware chain composer
`makeRequestWithMiddlewares`, the retry engine `Retry`, and the
`DefaultRetryRule` predicate, together with theorems settling the
specification claims about them.

Modelling conventions:
* Go byte slices (`[]byte`) and Go strings are both modelled as Lean
  `String` (Go's `[]byte` to `string` conversion is byte-preserving in
  both directions, so a sequence of characters models a sequence of
  bytes injectively).
* Go `nil` pointers / `nil` slices / `nil` function values are modelled
  with `Option`.
* Go `error` values produced by the client are modelled by the inductive
  type `Err`; `Err.text` renders the same message strings the Go code
  builds with `fmt.Errorf`.
* The HTTP transport (`http.Client.Do`) is an opaque collaborator; it is
  modelled by an environment function receiving the attempt's request
  body bytes and headers and returning the server's answer.  The trace
  of what the transport received is returned as an observation list so
  that theorems can speak about the bytes sent on each attempt.
-/

namespace Krest

/-- Go `[]byte` payloads, modelled as strings (byte-preserving). -/
abbrev Bytes := String

/-- The relevant part of Go's `*http.Response`: status code, header
multimap and (fully read) body bytes. -/
structure HttpResponse where
  statusCode : Nat
  header : List (String × List String)
  body : Bytes
  deriving DecidableEq, Repr

/-- Errors produced by `makeRequest`, mirroring the `fmt.Errorf` calls of
the Go source. -/
inductive Err where
  | cantRetryReader
  | cantRetryFieldMap
  | multipartBuild (msg : String)
  | marshalErr (msg : String)
  | buildRequestErr (msg : String)
  | invalidHeader (key : String) (typeName : String)
  | transportErr (msg : String)
  | unexpectedStatus (method : String) (url : String) (status : Nat) (payload : Bytes)
  deriving DecidableEq, Repr

/-- A single-quote character, used by the Go error message format
strings. -/
def sq : String := String.mk [Char.ofNat 39]

/-- Rendering of `Err` values to the message text built by the
corresponding `fmt.Errorf` calls in the Go source. -/
def Err.text : Err → String
  | .cantRetryReader => "can" ++ sq ++ "t retry a request whose body is an io.Reader"
  | .cantRetryFieldMap => "can" ++ sq ++ "t retry a request whose body depends on io.Reader" ++ sq ++ "s"
  | .multipartBuild msg => "error building multipart data: " ++ msg
  | .marshalErr msg => msg
  | .buildRequestErr msg => msg
  | .invalidHeader key typeName =>
      "header of invalid type received for key " ++ sq ++ key ++ sq ++ ": " ++ typeName
  | .transportErr msg => msg
  | .unexpectedStatus method url status payload =>
      method ++ " " ++ url ++ ": unexpected status code: " ++ toString status
        ++ ", payload: " ++ payload

/-- `retriableStatus` map built inside `DefaultRetryRule`:
`{StatusLocked: true, StatusTooEarly: true, StatusTooManyRequests: true}`
(423, 425, 429); lookup of an absent key yields `false`. -/
def retriableStatus (code : Nat) : Bool :=
  code = 423 || code = 425 || code = 429

/-- `DefaultRetryRule(resp *http.Response, err error) bool`:
`err != nil || retriableStatus[resp.StatusCode] || resp.StatusCode >= 500`.
The `||` short-circuits, so `resp.StatusCode` is only read when `err` is
nil; reading it when `resp` is also nil dereferences a nil pointer,
modelled as `none`. -/
def DefaultRetryRule (resp : Option HttpResponse) (err : Option Err) : Option Bool :=
  match err with
  | some _ => some true
  | none =>
    match resp with
    | some r => some (retriableStatus r.statusCode || decide (500 ≤ r.statusCode))
    | none => none

/-- Total wrapper of `DefaultRetryRule` used as the default value of
`RequestData.RetryRule`; the request executor only ever calls the rule
with a non-nil response or a non-nil error, where the two agree. -/
def defaultRetryRuleFn (resp : Option HttpResponse) (err : Option Err) : Bool :=
  (DefaultRetryRule resp err).getD false

/-- A value of the `map[string]any` header mapping of `RequestData`.
The type switch in `makeRequest` distinguishes `string`, `[]string` and
everything else; `other` carries the `%T` rendering of the value's Go
type used in the error message. -/
inductive HeaderValue where
  | str (v : String)
  | strList (vs : List String)
  | other (typeName : String)
  deriving DecidableEq

/-- The `RequestData.Body` field (`interface{}`), as dispatched by the
type switch in `makeRequest`: `nil`, `io.Reader` (a single-use stream
with the given contents), `[]byte`, `string`, `map[string]io.Reader`
(multipart field map, each field's stream contents given), and the
default case of any other value, which is passed to `json.Marshal`;
`generic` carries the marshal outcome as data. -/
inductive Body where
  | nilBody
  | reader (contents : Bytes)
  | bytes (bs : Bytes)
  | str (s : String)
  | fieldMap (fields : List (String × Bytes))
  | generic (marshal : Except String Bytes)

/-- `krest.RequestData`.  `headers = none` models a nil map,
`retryRule = none` a nil function value.  `TLSConfig` and
`FollowRedirects` only parameterize the opaque transport and are
absorbed into the environment.  Durations are nanosecond counts
(`time.Duration`). -/
structure RequestData where
  body : Body := .nilBody
  headers : Option (List (String × HeaderValue)) := none
  maxRetries : Int := 0
  baseRetryDelay : Nat := 0
  maxRetryDelay : Nat := 0
  retryRule : Option (Option HttpResponse → Option Err → Bool) := none
  stream : Bool := false

/-- `RequestData.SetDefaultsIfNecessary`: `MaxRetries == 0` becomes 1,
`BaseRetryDelay == 0` becomes 300ms, `MaxRetryDelay == 0` becomes 32s,
nil `RetryRule` becomes `DefaultRetryRule`, nil `Headers` becomes an
empty map. -/
def RequestData.setDefaultsIfNecessary (r : RequestData) : RequestData :=
  { r with
    maxRetries := if r.maxRetries = 0 then 1 else r.maxRetries
    baseRetryDelay := if r.baseRetryDelay = 0 then 300000000 else r.baseRetryDelay
    maxRetryDelay := if r.maxRetryDelay = 0 then 32000000000 else r.maxRetryDelay
    retryRule := some (r.retryRule.getD defaultRetryRuleFn)
    headers := some (r.headers.getD []) }

/-! ## Retry engine

The file `retry.go` of the repository is not among the provided sources
(only its caller `makeRequest` is), so the engine is modelled from the
specification. -/

/-- Result of a run of the retry engine: the final threaded state, the
list of backoff sleeps performed (in nanoseconds, in order), and the
total number of invocations of the attempt callback. -/
structure RetryResult (σ : Type) where
  state : σ
  sleeps : List Nat
  attempts : Nat
  deriving DecidableEq

/-- Modelled from the spec: the loop of the retry engine (`retry.go` is
not in the sources).  `n` is the number of attempts still allowed and
`delay` the current (uncapped) backoff delay.  Each round invokes
`attempt`; it stops when the callback returns `false` or the allowance
is exhausted, and otherwise sleeps `min delay maxDelay` (the delay
starts at `baseDelay`, doubles per retry and is capped at `maxDelay`)
before the next round. -/
def retryAux {σ : Type} (maxDelay : Nat) (attempt : σ → σ × Bool) :
    Nat → Nat → σ → RetryResult σ
  | 0, _, s => ⟨s, [], 0⟩
  | 1, _, s => ⟨(attempt s).1, [], 1⟩
  | n + 2, delay, s =>
    let out := attempt s
    if out.2 then
      let r := retryAux maxDelay attempt (n + 1) (delay * 2) out.1
      ⟨r.state, min delay maxDelay :: r.sleeps, r.attempts + 1⟩
    else
      ⟨out.1, [], 1⟩

/-- Modelled from the spec:
`Retry(ctx, baseDelay, maxDelay, maxAttempts, attempt func() bool)`.
Invokes `attempt` at least once; `maxAttempts` counts total attempts
including the first, and `maxAttempts <= 0` behaves as 1.  The Go
callback's side effects are modelled by threading a state `σ`.
Cancellation (which can only cut the sequence short during a sleep) is
not modelled. -/
def Retry {σ : Type} (baseDelay maxDelay : Nat) (maxAttempts : Int)
    (attempt : σ → σ × Bool) (s : σ) : RetryResult σ :=
  let n : Nat := if maxAttempts ≤ 1 then 1 else maxAttempts.toNat
  retryAux maxDelay attempt n baseDelay s

/-! ## Request headers -/

/-- The characters Go's `net/textproto` treats as valid header-key token
characters (letters, digits and `!#$%&'*+-.^_`|~`). -/
def isTokenChar (c : Char) : Bool :=
  c.isAlphanum ||
    c ∈ ['!', '#', '$', '%', '&', Char.ofNat 39, '*', '+', '-', '.',
         Char.ofNat 94, '_', Char.ofNat 96, '|', Char.ofNat 126]

/-- Case-folding pass of `textproto.CanonicalMIMEHeaderKey`: uppercase
the first letter and every letter following a dash, lowercase the
rest. -/
def canonChars : Bool → List Char → List Char
  | _, [] => []
  | upper, c :: cs =>
    let c2 := if upper then c.toUpper else c.toLower
    c2 :: canonChars (c2 = '-') cs

/-- `textproto.CanonicalMIMEHeaderKey`: returns the key unchanged when it
holds any invalid token character, otherwise canonicalizes case. -/
def canonicalMIMEHeaderKey (s : String) : String :=
  if s.data.all isTokenChar then String.mk (canonChars true s.data) else s

/-- Map update on an association-list rendering of a Go map: replace the
value under `k` when present, otherwise add the binding. -/
def setAssoc {α : Type} (m : List (String × α)) (k : String) (v : α) :
    List (String × α) :=
  if m.any (fun p => p.1 = k) then
    m.map (fun p => if p.1 = k then (k, v) else p)
  else
    m ++ [(k, v)]

/-- The header loop of `makeRequest`'s attempt closure: starting from the
fresh request's empty header map, `string` values go through
`req.Header.Set` (canonical key, single value), `[]string` values are
assigned directly under the raw key, and any other value aborts with an
error naming the key and the value's type. -/
def processHeaders (acc : List (String × List String)) :
    List (String × HeaderValue) → Except (String × String) (List (String × List String))
  | [] => .ok acc
  | (k, .str v) :: rest => processHeaders (setAssoc acc (canonicalMIMEHeaderKey k) [v]) rest
  | (k, .strList vs) :: rest => processHeaders (setAssoc acc k vs) rest
  | (k, .other typeName) :: _ => .error (k, typeName)

/-! ## The request executor `makeRequest` -/

/-- Outcome of one `httpClient.Do` call: the server's response, or an
opaque transport error (in which case Go's `http.Client.Do` returns a
nil response). -/
inductive TransportResult where
  | ok (r : HttpResponse)
  | fail (e : String)

/-- The opaque collaborators of one `makeRequest` call:
* `transport i body headers` is what the `i`-th `httpClient.Do` call of
  this run answers when the request carries the given body bytes and
  headers (the client timeout and TLS configuration are absorbed here);
* `buildErr` is the outcome of `http.NewRequestWithContext` (an invalid
  method or url fails the same way on every attempt);
* `multipart` stands for `newMultipartStream` (its source file is not
  among the provided sources): it turns the field map into the encoded
  byte stream and the `multipart/form-data` content-type string, or
  fails. -/
structure Env where
  transport : Nat → Bytes → List (String × List String) → TransportResult
  buildErr : Option String := none
  multipart : List (String × Bytes) → Except String (Bytes × String) :=
    fun _ => .error ""

/-- What the transport received on one attempt: the request body bytes
(read to end) and the request headers. -/
structure AttemptObs where
  bodySent : Bytes
  headersSent : List (String × List String)
  deriving DecidableEq, Repr

/-- The mutable state threaded through the retry loop of `makeRequest`:
the current `requestBody` reader (`none` is a nil reader; a reader is
consumed by a transport call), the `resp` and `err` variables captured
by the closure, the number of `httpClient.Do` calls so far, and the
observation trace of what the transport received. -/
structure LoopState where
  requestBody : Option Bytes
  resp : Option HttpResponse
  err : Option Err
  doCalls : Nat
  obs : List AttemptObs

/-- The per-run constants captured by the attempt closure. -/
structure LoopCfg where
  bytesPayload : Option Bytes
  headers : List (String × HeaderValue)
  retryRule : Option HttpResponse → Option Err → Bool
  env : Env

/-- The attempt closure passed to `Retry` by `makeRequest`: regenerate
the body reader from `bytesPayload` when that is non-nil, build the
request (a build error is retried), set the headers (an invalid header
value aborts with `false`), perform the transport call (consuming the
reader) and ask the retry rule whether to go on. -/
def makeAttempt (cfg : LoopCfg) (s : LoopState) : LoopState × Bool :=
  let rb := match cfg.bytesPayload with
    | some p => some p
    | none => s.requestBody
  match cfg.env.buildErr with
  | some e => ({ s with requestBody := rb, err := some (.buildRequestErr e) }, true)
  | none =>
    match processHeaders [] cfg.headers with
    | .error (k, typeName) =>
      ({ s with requestBody := rb, err := some (.invalidHeader k typeName) }, false)
    | .ok hdrs =>
      let sent := rb.getD ""
      let consumed := rb.map (fun _ => "")
      match cfg.env.transport s.doCalls sent hdrs with
      | .ok r =>
        (⟨consumed, some r, none, s.doCalls + 1, s.obs ++ [⟨sent, hdrs⟩]⟩,
         cfg.retryRule (some r) none)
      | .fail e =>
        (⟨consumed, none, some (.transportErr e), s.doCalls + 1, s.obs ++ [⟨sent, hdrs⟩]⟩,
         cfg.retryRule none (some (.transportErr e)))

/-- The body type switch at the top of `makeRequest` (run after the
defaults were applied): yields the canonical byte payload
(`bytesPayload`, nil unless the body is `[]byte`, `string` or
JSON-marshaled), the initial `requestBody` reader, and the header
mapping (which gains a `Content-Type` entry in the multipart case); or
fails with the configuration/encoding errors of the source. -/
def prepareBody (data : RequestData) (env : Env) :
    Except Err (Option Bytes × Option Bytes × List (String × HeaderValue)) :=
  let hs := data.headers.getD []
  match data.body with
  | .nilBody => .ok (none, none, hs)
  | .reader contents =>
    if data.maxRetries > 1 then .error .cantRetryReader
    else .ok (none, some contents, hs)
  | .bytes bs => .ok (some bs, none, hs)
  | .str s => .ok (some s, none, hs)
  | .fieldMap fields =>
    if data.maxRetries > 1 then .error .cantRetryFieldMap
    else
      match env.multipart fields with
      | .error e => .error (.multipartBuild e)
      | .ok (form, contentType) =>
        .ok (none, some form, setAssoc hs "Content-Type" (.str contentType))
  | .generic marshal =>
    match marshal with
    | .error e => .error (.marshalErr e)
    | .ok bs => .ok (some bs, none, hs)

/-- The retry loop of `makeRequest`: runs `Retry` with the attempt
closure over the initial loop state and returns the final state. -/
def requestLoop (data : RequestData) (env : Env) (bytesPayload requestBody0 : Option Bytes)
    (hs : List (String × HeaderValue)) : LoopState :=
  (Retry data.baseRetryDelay data.maxRetryDelay data.maxRetries
    (makeAttempt ⟨bytesPayload, hs, data.retryRule.getD defaultRetryRuleFn, env⟩)
    ⟨requestBody0, none, none, 0, []⟩).state

/-- The handle through which a `Response`'s payload is reachable: the
live network stream (`resp.Body`), a buffered `NopCloser` over the fully
read bytes, or the nil reader of a zero-valued `Response`. -/
inductive BodyHandle where
  | live (bs : Bytes)
  | buffered (bs : Bytes)
  | nilHandle
  deriving DecidableEq, Repr

/-- `krest.Response`: the embedded `io.ReadCloser`, the buffered body
bytes (`none` models a nil slice), the header mapping copied from the
server response, and the status code. -/
structure Response where
  readCloser : BodyHandle
  body : Option Bytes
  header : List (String × List String)
  statusCode : Nat
  deriving DecidableEq, Repr

/-- The zero value `Response{}` returned on error paths. -/
def Response.zero : Response := ⟨.nilHandle, none, [], 0⟩

/-- The classification after the retry loop: a captured error is
returned with a zero `Response`; otherwise, unless streaming was
requested and the status is a 2xx success, the body is fully read and
buffered, and a non-2xx status yields the `unexpectedStatus` error next
to the populated `Response`. -/
def classify (method url : String) (stream : Bool) (st : LoopState) :
    Response × Option Err :=
  match st.err with
  | some e => (Response.zero, some e)
  | none =>
    match st.resp with
    | none => (Response.zero, none)
    | some r =>
      let isStatusSuccess := decide (200 ≤ r.statusCode) && decide (r.statusCode < 300)
      if stream && isStatusSuccess then
        (⟨.live r.body, none, r.header, r.statusCode⟩, none)
      else
        (⟨.buffered r.body, some r.body, r.header, r.statusCode⟩,
         if isStatusSuccess then none
         else some (.unexpectedStatus method url r.statusCode r.body))

/-- `Client.makeRequest`, returning the `Response`, the error, and the
observation trace of what the transport received on each attempt. -/
def makeRequest (method url : String) (data0 : RequestData) (env : Env) :
    Response × Option Err × List AttemptObs :=
  let data := data0.setDefaultsIfNecessary
  match prepareBody data env with
  | .error e => (Response.zero, some e, [])
  | .ok (bytesPayload, requestBody0, hs) =>
    let st := requestLoop data env bytesPayload requestBody0 hs
    let out := classify method url data.stream st
    (out.1, out.2, st.obs)

/-! ## Middleware chain composer

Middlewares are arbitrary Go closures; their side effects are modelled
by threading an abstract state `σ` (instantiated with a log of strings
to observe invocation order).  The cancellation context is not
modelled. -/

/-- The shape of `krest.NextMiddleware`:
`func(ctx, method, url, data) (Response, error)`, threading the effect
state. -/
abbrev Handler (σ : Type) :=
  String → String → RequestData → σ → σ × Response × Option Err

/-- The shape of `krest.Middleware`:
`func(ctx, method, url, data, next) (Response, error)`. -/
abbrev Mw (σ : Type) :=
  String → String → RequestData → Handler σ → σ → σ × Response × Option Err

/-- `Client.makeRequestWithMiddlewares`: starting from the terminal
executor (`c.makeRequest`), the loop walks the middleware list from back
to front, each step capturing the current head of the chain as the
`next` continuation of the one before it; the result is the compiled
entry point.  The back-to-front loop is exactly a right fold. -/
def makeRequestWithMiddlewares {σ : Type} (mws : List (Mw σ)) (terminal : Handler σ) :
    Handler σ :=
  mws.foldr (fun m next => fun method url data => m method url data next) terminal

/-- Modelled from the spec: the nested composition the composer must be
equivalent to — interceptor 0 wraps a continuation invoking
interceptor 1, and so on down to the terminal executor. -/
def nestedChain {σ : Type} (mws : List (Mw σ)) (terminal : Handler σ) : Handler σ :=
  match mws with
  | [] => terminal
  | m :: rest => fun method url data => m method url data (nestedChain rest terminal)

/-- A middleware that ignores its `next` continuation, i.e. returns
without calling it: its outcome does not depend on `next`. -/
def IgnoresNext {σ : Type} (m : Mw σ) : Prop :=
  ∀ method url data next next' s,
    m method url data next s = m method url data next' s

/-- A well-behaved logging middleware used to observe invocation order:
it logs `name ++ ":in"`, calls `next` exactly once, then logs
`name ++ ":out"`. -/
def logMw (name : String) : Mw (List String) :=
  fun method url data next log =>
    let out := next method url data (log ++ [name ++ ":in"])
    (out.1 ++ [name ++ ":out"], out.2)

/-- A terminal executor that logs that it ran. -/
def logTerminal : Handler (List String) :=
  fun _ _ _ log => (log ++ ["terminal"], Response.zero, none)

/-- The canonical byte payload of a regenerable (non-stream) body: the
bytes themselves for `[]byte`, the UTF-8 bytes for `string`, and the
marshal output for a JSON-marshalable generic body.  Exactly for these
bodies `makeRequest` keeps a non-nil `bytesPayload`. -/
def canonicalPayload : Body → Option Bytes
  | .bytes bs => some bs
  | .str s => some s
  | .generic (.ok bs) => some bs
  | _ => none

/-- `needle` occurs as a contiguous substring of `hay`. -/
def containsStr (hay needle : String) : Prop :=
  ∃ pre post, hay = pre ++ (needle ++ post)

/-! ## Helper lemmas -/

theorem retryAux_attempts_pos {σ : Type} (maxDelay : Nat) (attempt : σ → σ × Bool) :
    ∀ n d s, 1 ≤ n → 1 ≤ (retryAux maxDelay attempt n d s).attempts := by
  intro n
  induction n using Nat.strong_induction_on with
  | _ n ih =>
    match n with
    | 0 => intro d s h; omega
    | 1 => intro d s _; simp [retryAux]
    | n + 2 =>
      intro d s _
      simp only [retryAux]
      split
      · simp
      · simp

theorem retryAux_attempts_of_true {σ : Type} (maxDelay : Nat) (attempt : σ → σ × Bool)
    (h : ∀ t, (attempt t).2 = true) :
    ∀ n d s, (retryAux maxDelay attempt n d s).attempts = n := by
  intro n
  induction n using Nat.strong_induction_on with
  | _ n ih =>
    match n with
    | 0 => intro d s; simp [retryAux]
    | 1 => intro d s; simp [retryAux]
    | n + 2 =>
      intro d s
      simp only [retryAux, h]
      simp only [if_true]
      rw [ih (n + 1) (by omega)]

theorem retryAux_sleeps_closed_form {σ : Type} (maxDelay : Nat) (attempt : σ → σ × Bool) :
    ∀ n d s, (retryAux maxDelay attempt n d s).sleeps
      = (List.range (retryAux maxDelay attempt n d s).sleeps.length).map
          (fun j => min (d * 2 ^ j) maxDelay) := by
  intro n
  induction n using Nat.strong_induction_on with
  | _ n ih =>
    match n with
    | 0 => intro d s; simp [retryAux]
    | 1 => intro d s; simp [retryAux]
    | n + 2 =>
      intro d s
      simp only [retryAux]
      split
      · simp only [List.length_cons, List.range_succ_eq_map, List.map_cons, List.map_map]
        congr 1
        · simp
        · rw [ih (n + 1) (by omega)]
          simp only [List.length_map, List.length_range]
          apply List.map_congr_left
          intro j _
          simp only [Function.comp]
          have : d * 2 * 2 ^ j = d * 2 ^ (j + 1) := by ring
          rw [this]
      · simp

theorem retryAux_of_first_false {σ : Type} (maxDelay : Nat) (attempt : σ → σ × Bool)
    (n d : Nat) (s : σ) (hn : 1 ≤ n) (h : (attempt s).2 = false) :
    retryAux maxDelay attempt n d s = ⟨(attempt s).1, [], 1⟩ := by
  match n with
  | 1 => simp [retryAux]
  | n + 2 => simp [retryAux, h]

theorem retryAux_state_inv {σ : Type} (maxDelay : Nat) (attempt : σ → σ × Bool)
    (Q : σ → Prop) (hstep : ∀ t, Q t → Q (attempt t).1) :
    ∀ n d s, Q s → Q (retryAux maxDelay attempt n d s).state := by
  intro n
  induction n using Nat.strong_induction_on with
  | _ n ih =>
    match n with
    | 0 => intro d s h; simpa [retryAux] using h
    | 1 => intro d s h; simpa [retryAux] using hstep s h
    | n + 2 =>
      intro d s h
      simp only [retryAux]
      split
      · exact ih (n + 1) (by omega) _ _ (hstep s h)
      · exact hstep s h

theorem retry_effective_attempts_pos (maxAttempts : Int) :
    1 ≤ (if maxAttempts ≤ 1 then 1 else maxAttempts.toNat) := by
  split
  · omega
  · omega

theorem setDefaults_body (r : RequestData) :
    (r.setDefaultsIfNecessary).body = r.body := rfl

theorem setDefaults_stream (r : RequestData) :
    (r.setDefaultsIfNecessary).stream = r.stream := rfl

theorem prepareBody_bytes (data : RequestData) (env : Env) (bs : Bytes)
    (h : data.body = .bytes bs) :
    prepareBody data env = .ok (some bs, none, data.headers.getD []) := by
  unfold prepareBody
  rw [h]

theorem prepareBody_str (data : RequestData) (env : Env) (s : String)
    (h : data.body = .str s) :
    prepareBody data env = .ok (some s, none, data.headers.getD []) := by
  unfold prepareBody
  rw [h]

theorem prepareBody_generic_ok (data : RequestData) (env : Env) (bs : Bytes)
    (h : data.body = .generic (.ok bs)) :
    prepareBody data env = .ok (some bs, none, data.headers.getD []) := by
  unfold prepareBody
  rw [h]

theorem makeRequest_of_prepare_ok (method url : String) (data0 : RequestData) (env : Env)
    (bp rb0 : Option Bytes) (hs : List (String × HeaderValue))
    (h : prepareBody data0.setDefaultsIfNecessary env = .ok (bp, rb0, hs)) :
    makeRequest method url data0 env
      = ((classify method url data0.setDefaultsIfNecessary.stream
            (requestLoop data0.setDefaultsIfNecessary env bp rb0 hs)).1,
         (classify method url data0.setDefaultsIfNecessary.stream
            (requestLoop data0.setDefaultsIfNecessary env bp rb0 hs)).2,
         (requestLoop data0.setDefaultsIfNecessary env bp rb0 hs).obs) := by
  unfold makeRequest
  simp only [h]

theorem makeRequest_of_prepare_err (method url : String) (data0 : RequestData) (env : Env)
    (e : Err) (h : prepareBody data0.setDefaultsIfNecessary env = .error e) :
    makeRequest method url data0 env = (Response.zero, some e, []) := by
  unfold makeRequest
  simp only [h]

theorem makeAttempt_obs_all {p : Bytes} (cfg : LoopCfg) (hbp : cfg.bytesPayload = some p)
    (s : LoopState) (hobs : s.obs.all (fun e => e.bodySent == p) = true) :
    ((makeAttempt cfg s).1).obs.all (fun e => e.bodySent == p) = true := by
  simp only [makeAttempt, hbp, Option.getD_some, Option.map_some]
  cases h1 : cfg.env.buildErr with
  | some e => simpa using hobs
  | none =>
    cases h2 : processHeaders [] cfg.headers with
    | error kt =>
      cases kt
      simpa using hobs
    | ok hdrs =>
      cases h3 : cfg.env.transport s.doCalls p hdrs with
      | ok r =>
        simp only [h3]
        simp [hobs]
      | fail e =>
        simp only [h3]
        simp [hobs]

theorem requestLoop_obs_all (data : RequestData) (env : Env) (p : Bytes)
    (rb0 : Option Bytes) (hs : List (String × HeaderValue)) :
    ((requestLoop data env (some p) rb0 hs).obs).all (fun e => e.bodySent == p) = true := by
  unfold requestLoop Retry
  exact retryAux_state_inv _
    (makeAttempt ⟨some p, hs, data.retryRule.getD defaultRetryRuleFn, env⟩)
    (fun st => st.obs.all (fun e => e.bodySent == p) = true)
    (fun t ht =>
      makeAttempt_obs_all ⟨some p, hs, data.retryRule.getD defaultRetryRuleFn, env⟩ rfl t ht)
    _ _ _ rfl

/-! ## Claim theorems -/

/-- Claim C5: the retry engine invokes its attempt callback at least
once; with `maxAttempts <= 1` (in particular `maxAttempts <= 0`, which
behaves as 1) it runs exactly one attempt regardless of the predicate;
when the predicate always says retry it runs exactly `maxAttempts`
attempts in total; and the sleep inserted before attempt `k` (1-based,
`k > 1`), which is entry `k - 2` of the sleep list, equals
`min (baseDelay * 2 ^ (k - 2)) maxDelay`. -/
theorem retry_engine_attempt_count_and_backoff {σ : Type} (baseDelay maxDelay : Nat)
    (maxAttempts : Int) (attempt : σ → σ × Bool) (s : σ) :
    1 ≤ (Retry baseDelay maxDelay maxAttempts attempt s).attempts
    ∧ (maxAttempts ≤ 1 → (Retry baseDelay maxDelay maxAttempts attempt s).attempts = 1)
    ∧ ((∀ t, (attempt t).2 = true) →
        (Retry baseDelay maxDelay maxAttempts attempt s).attempts
          = if maxAttempts ≤ 1 then 1 else maxAttempts.toNat)
    ∧ (Retry baseDelay maxDelay maxAttempts attempt s).sleeps
        = (List.range (Retry baseDelay maxDelay maxAttempts attempt s).sleeps.length).map
            (fun j => min (baseDelay * 2 ^ j) maxDelay) := by
  refine ⟨?_, ?_, ?_, ?_⟩
  · exact retryAux_attempts_pos _ _ _ _ _ (retry_effective_attempts_pos maxAttempts)
  · intro h
    simp only [Retry, if_pos h]
    simp [retryAux]
  · intro h
    simp only [Retry]
    exact retryAux_attempts_of_true _ _ h _ _ _
  · simp only [Retry]
    exact retryAux_sleeps_closed_form _ _ _ _ _

/-- Witness for C5: with an always-retry callback, `maxAttempts = 5`,
`baseDelay = 300` and `maxDelay = 1000`, the engine makes exactly 5
attempts and sleeps 300, 600, 1000, 1000 between them. -/
theorem retry_engine_attempt_count_and_backoff_witness :
    (Retry 300 1000 5 (fun n : Nat => (n + 1, true)) 0).attempts = 5
    ∧ (Retry 300 1000 5 (fun n : Nat => (n + 1, true)) 0).sleeps = [300, 600, 1000, 1000] := by
  constructor
  · have h := (retry_engine_attempt_count_and_backoff 300 1000 5
      (fun n : Nat => (n + 1, true)) 0).2.2.1 (fun _ => rfl)
    simpa using h
  · decide

/-- On a non-nil response and nil error `DefaultRetryRule` decides the
status-code disjunction. -/
theorem defaultRetryRule_some_none (r : HttpResponse) :
    DefaultRetryRule (some r) none
      = some (decide (r.statusCode = 423 ∨ r.statusCode = 425 ∨ r.statusCode = 429
          ∨ 500 ≤ r.statusCode)) := by
  simp only [DefaultRetryRule, retriableStatus]
  congr 1
  by_cases h1 : r.statusCode = 423 <;> by_cases h2 : r.statusCode = 425 <;>
    by_cases h3 : r.statusCode = 429 <;> by_cases h4 : 500 ≤ r.statusCode <;>
    simp [h1, h2, h3, h4]

/-- Counterexample for C9: at the concrete input `resp = nil`,
`err = nil`, `DefaultRetryRule` dereferences the nil response pointer
instead of returning a boolean, so it returns neither `false` (as the
claim states for this input) nor `true`. -/
theorem default_retry_rule_nil_nil_refuted :
    DefaultRetryRule none none = none
    ∧ DefaultRetryRule none none ≠ some false
    ∧ DefaultRetryRule none none ≠ some true := by
  decide

/-- Claim C9 (amended): for every `resp` and `err` with `err` non-nil or
`resp` non-nil, `DefaultRetryRule resp err` returns `true` exactly when
`err` is non-nil, or the status code is one of 423, 425, 429, or the
status code is at least 500, and returns `false` on every other such
input; at `resp = nil, err = nil` the function dereferences a nil
pointer instead of returning. -/
theorem default_retry_rule_characterization (resp : Option HttpResponse) (err : Option Err)
    (h : err ≠ none ∨ resp ≠ none) :
    (DefaultRetryRule resp err = some true ↔
      (err ≠ none ∨ ∃ r, resp = some r ∧
        (r.statusCode = 423 ∨ r.statusCode = 425 ∨ r.statusCode = 429 ∨ 500 ≤ r.statusCode)))
    ∧ (DefaultRetryRule resp err = some false ↔
      ¬(err ≠ none ∨ ∃ r, resp = some r ∧
        (r.statusCode = 423 ∨ r.statusCode = 425 ∨ r.statusCode = 429 ∨ 500 ≤ r.statusCode))) := by
  cases err with
  | some e => simp [DefaultRetryRule]
  | none =>
    cases resp with
    | none => simp at h
    | some r =>
      rw [defaultRetryRule_some_none]
      constructor
      · simp only [Option.some.injEq, decide_eq_true_eq]
        constructor
        · intro h1
          exact Or.inr ⟨r, rfl, h1⟩
        · rintro (hl | ⟨r2, hr2, hcode⟩)
          · exact absurd rfl hl
          · cases hr2
            exact hcode
      · simp only [Option.some.injEq, decide_eq_false_iff_not]
        constructor
        · rintro h1 (hl | ⟨r2, hr2, hcode⟩)
          · exact hl rfl
          · cases hr2
            exact h1 hcode
        · intro hnq hp
          exact hnq (Or.inr ⟨r, rfl, hp⟩)

/-- Witness for C9: a 423 response with a nil error is retried. -/
theorem default_retry_rule_characterization_witness :
    DefaultRetryRule (some ⟨423, [], ""⟩) none = some true := by
  have h := (default_retry_rule_characterization (some ⟨423, [], ""⟩) none
    (Or.inr (by simp))).1
  exact h.mpr (Or.inr ⟨⟨423, [], ""⟩, rfl, Or.inl rfl⟩)

/-- Claim C10: `DefaultRetryRule` reads `resp.StatusCode` whenever `err`
is nil (so its outcome on a nil error is exactly the status-based test
mapped over `resp`, with a nil dereference at `resp = nil`); under the
precondition that `err` or `resp` is non-nil the nil-dereference branch
is unreachable and the function is well-defined. -/
theorem default_retry_rule_nil_deref_domain :
    DefaultRetryRule none none = none
    ∧ (∀ (resp : Option HttpResponse) (err : Option Err),
        err ≠ none ∨ resp ≠ none → (DefaultRetryRule resp err).isSome = true)
    ∧ (∀ resp : Option HttpResponse,
        DefaultRetryRule resp none
          = resp.map (fun r => retriableStatus r.statusCode || decide (500 ≤ r.statusCode))) := by
  refine ⟨rfl, ?_, ?_⟩
  · intro resp err h
    cases err with
    | some e => simp [DefaultRetryRule]
    | none =>
      cases resp with
      | none => simp at h
      | some r => simp [DefaultRetryRule]
  · intro resp
    cases resp <;> simp [DefaultRetryRule]

/-- Witness for C10: the precondition conjunct applied at a concrete
non-nil response with a nil error. -/
theorem default_retry_rule_nil_deref_domain_witness :
    (DefaultRetryRule (some ⟨200, [], "ok"⟩) none).isSome = true :=
  default_retry_rule_nil_deref_domain.2.1 (some ⟨200, [], "ok"⟩) none (Or.inr (by simp))

/-- Claim C1: for every request whose body is `[]byte`, `string` or a
JSON-marshalable generic value (a regenerable, non-stream body with
canonical payload `p`) and every attempt the retry loop makes, the body
reader is rebuilt from `p` before the transport call, so every entry of
the transport observation trace carries exactly the bytes `p` — in
particular the bytes received on attempt `k` are byte-identical to the
bytes received on attempt 1, up to `maxAttempts`. -/
theorem retry_body_regenerated_each_attempt (method url : String) (data0 : RequestData)
    (env : Env) (p : Bytes) (hp : canonicalPayload data0.body = some p) :
    ((makeRequest method url data0 env).2.2).all (fun e => e.bodySent == p) = true := by
  cases hb : data0.body with
  | nilBody => rw [hb] at hp; simp [canonicalPayload] at hp
  | reader contents => rw [hb] at hp; simp [canonicalPayload] at hp
  | fieldMap fields => rw [hb] at hp; simp [canonicalPayload] at hp
  | bytes bs =>
    rw [hb] at hp
    simp only [canonicalPayload, Option.some.injEq] at hp
    rw [makeRequest_of_prepare_ok method url data0 env (some bs) none
      (data0.setDefaultsIfNecessary.headers.getD [])
      (prepareBody_bytes _ env bs (by rw [setDefaults_body, hb]))]
    rw [← hp]
    exact requestLoop_obs_all _ _ _ _ _
  | str str0 =>
    rw [hb] at hp
    simp only [canonicalPayload, Option.some.injEq] at hp
    rw [makeRequest_of_prepare_ok method url data0 env (some str0) none
      (data0.setDefaultsIfNecessary.headers.getD [])
      (prepareBody_str _ env str0 (by rw [setDefaults_body, hb]))]
    rw [← hp]
    exact requestLoop_obs_all _ _ _ _ _
  | generic marshal =>
    cases marshal with
    | error e => rw [hb] at hp; simp [canonicalPayload] at hp
    | ok bs =>
      rw [hb] at hp
      simp only [canonicalPayload, Option.some.injEq] at hp
      rw [makeRequest_of_prepare_ok method url data0 env (some bs) none
        (data0.setDefaultsIfNecessary.headers.getD [])
        (prepareBody_generic_ok _ env bs (by rw [setDefaults_body, hb]))]
      rw [← hp]
      exact requestLoop_obs_all _ _ _ _ _

/-- A server that answers 502 on the first transport call and 200 on
later ones, used by the C1 witness. -/
def envRetryOnce : Env :=
  { transport := fun i _ _ =>
      if i = 0 then .ok ⟨502, [], "bad gateway"⟩ else .ok ⟨200, [], "all good"⟩ }

/-- Request data with a `[]byte` body and two allowed attempts, used by
the C1 witness. -/
def dataBytesTwoAttempts : RequestData :=
  { body := .bytes "hello", maxRetries := 2 }

/-- Witness for C1: a 502 then 200 run with `maxAttempts = 2` and a
`[]byte` body makes two transport calls, both of which receive exactly
the canonical payload. -/
theorem retry_body_regenerated_each_attempt_witness :
    ((makeRequest "POST" "http://x" dataBytesTwoAttempts envRetryOnce).2.2).all
        (fun e => e.bodySent == "hello") = true
    ∧ ((makeRequest "POST" "http://x" dataBytesTwoAttempts envRetryOnce).2.2).length = 2
    ∧ (makeRequest "POST" "http://x" dataBytesTwoAttempts envRetryOnce).1.statusCode = 200 := by
  refine ⟨retry_body_regenerated_each_attempt "POST" "http://x"
    dataBytesTwoAttempts envRetryOnce "hello" rfl, by decide, by decide⟩

/-- The `unexpectedStatus` error text contains the method, the url, the
decimal status code and the payload as substrings. -/
theorem unexpectedStatus_text_contains (method url : String) (status : Nat) (payload : Bytes) :
    containsStr (Err.text (.unexpectedStatus method url status payload)) method
    ∧ containsStr (Err.text (.unexpectedStatus method url status payload)) url
    ∧ containsStr (Err.text (.unexpectedStatus method url status payload)) (toString status)
    ∧ containsStr (Err.text (.unexpectedStatus method url status payload)) payload := by
  refine ⟨⟨"", " " ++ (url ++ (": unexpected status code: "
      ++ (toString status ++ (", payload: " ++ payload)))), ?_⟩,
    ⟨method ++ " ", ": unexpected status code: "
      ++ (toString status ++ (", payload: " ++ payload)), ?_⟩,
    ⟨method ++ (" " ++ (url ++ ": unexpected status code: ")),
      ", payload: " ++ payload, ?_⟩,
    ⟨method ++ (" " ++ (url ++ (": unexpected status code: "
      ++ (toString status ++ ", payload: ")))), "", ?_⟩⟩ <;>
    simp [Err.text, String.append_assoc]

/-- Claim C3: for every completed transport exchange whose final status
lies outside 200..299, `makeRequest` returns the `unexpectedStatus`
error — whose text contains the method, the url, the status code and
the response payload — and at the same time a `Response` whose
status code is the server's status and whose body equals the server's
payload bytes. -/
theorem non2xx_status_error_with_populated_response (method url : String)
    (data0 : RequestData) (env : Env) (bp rb0 : Option Bytes)
    (hs : List (String × HeaderValue)) (r : HttpResponse)
    (hprep : prepareBody data0.setDefaultsIfNecessary env = .ok (bp, rb0, hs))
    (herr : (requestLoop data0.setDefaultsIfNecessary env bp rb0 hs).err = none)
    (hresp : (requestLoop data0.setDefaultsIfNecessary env bp rb0 hs).resp = some r)
    (hbad : r.statusCode < 200 ∨ 300 ≤ r.statusCode) :
    (makeRequest method url data0 env).2.1
        = some (.unexpectedStatus method url r.statusCode r.body)
    ∧ (makeRequest method url data0 env).1.statusCode = r.statusCode
    ∧ (makeRequest method url data0 env).1.body = some r.body
    ∧ containsStr (Err.text (.unexpectedStatus method url r.statusCode r.body)) method
    ∧ containsStr (Err.text (.unexpectedStatus method url r.statusCode r.body)) url
    ∧ containsStr (Err.text (.unexpectedStatus method url r.statusCode r.body))
        (toString r.statusCode)
    ∧ containsStr (Err.text (.unexpectedStatus method url r.statusCode r.body)) r.body := by
  have hss : (decide (200 ≤ r.statusCode) && decide (r.statusCode < 300)) = false := by
    rcases hbad with h | h <;> simp <;> omega
  have hc : classify method url data0.setDefaultsIfNecessary.stream
      (requestLoop data0.setDefaultsIfNecessary env bp rb0 hs)
      = (⟨.buffered r.body, some r.body, r.header, r.statusCode⟩,
         some (.unexpectedStatus method url r.statusCode r.body)) := by
    simp only [classify, herr, hresp, hss, Bool.and_false]
    simp
  rw [makeRequest_of_prepare_ok method url data0 env bp rb0 hs hprep]
  have htext := unexpectedStatus_text_contains method url r.statusCode r.body
  exact ⟨by rw [hc], by rw [hc], by rw [hc], htext.1, htext.2.1, htext.2.2.1, htext.2.2.2⟩

/-- A server that always answers 400 with the payload the krest test
suite uses, for the C3 witness. -/
def envBadRequest : Env :=
  { transport := fun _ _ _ => .ok ⟨400, [("A", ["x"])], "Hello, client"⟩ }

/-- Witness for C3: a 400 response yields the status error while the
`Response` still carries status 400 and the server's bytes. -/
theorem non2xx_status_error_with_populated_response_witness :
    (makeRequest "GET" "http://y" {} envBadRequest).2.1
        = some (.unexpectedStatus "GET" "http://y" 400 "Hello, client")
    ∧ (makeRequest "GET" "http://y" {} envBadRequest).1.statusCode = 400
    ∧ (makeRequest "GET" "http://y" {} envBadRequest).1.body = some "Hello, client" := by
  have h := non2xx_status_error_with_populated_response "GET" "http://y" {} envBadRequest
    none none [] ⟨400, [("A", ["x"])], "Hello, client"⟩ rfl rfl rfl (Or.inr (by decide))
  exact ⟨h.1, h.2.1, h.2.2.1⟩

/-- Claim C4: response body bytes and the live stream handle are
mutually exclusive — when streaming is off or the final status is
non-2xx the payload is fully buffered into `Response.Body` (behind a
buffered `NopCloser`), and when streaming is on and the status is 2xx
the body slice stays nil and the payload is reachable only through the
live stream handle. -/
theorem body_stream_mutual_exclusivity (method url : String)
    (data0 : RequestData) (env : Env) (bp rb0 : Option Bytes)
    (hs : List (String × HeaderValue)) (r : HttpResponse)
    (hprep : prepareBody data0.setDefaultsIfNecessary env = .ok (bp, rb0, hs))
    (herr : (requestLoop data0.setDefaultsIfNecessary env bp rb0 hs).err = none)
    (hresp : (requestLoop data0.setDefaultsIfNecessary env bp rb0 hs).resp = some r) :
    ((data0.stream = false ∨ r.statusCode < 200 ∨ 300 ≤ r.statusCode) →
      (makeRequest method url data0 env).1.body = some r.body
      ∧ (makeRequest method url data0 env).1.readCloser = .buffered r.body)
    ∧ ((data0.stream = true ∧ 200 ≤ r.statusCode ∧ r.statusCode < 300) →
      (makeRequest method url data0 env).1.body = none
      ∧ (makeRequest method url data0 env).1.readCloser = .live r.body) := by
  rw [makeRequest_of_prepare_ok method url data0 env bp rb0 hs hprep]
  constructor
  · intro h
    have hcond : (data0.setDefaultsIfNecessary.stream
        && (decide (200 ≤ r.statusCode) && decide (r.statusCode < 300))) = false := by
      rcases h with h | h | h
      · rw [setDefaults_stream, h]
        simp
      · have : (decide (200 ≤ r.statusCode) && decide (r.statusCode < 300)) = false := by
          simp
          omega
        rw [this, Bool.and_false]
      · have : (decide (200 ≤ r.statusCode) && decide (r.statusCode < 300)) = false := by
          simp
          omega
        rw [this, Bool.and_false]
    simp only [classify, herr, hresp, hcond]
    simp
  · rintro ⟨hstream, h1, h2⟩
    have hcond : (data0.setDefaultsIfNecessary.stream
        && (decide (200 ≤ r.statusCode) && decide (r.statusCode < 300))) = true := by
      rw [setDefaults_stream, hstream]
      simp
      omega
    simp only [classify, herr, hresp, hcond]
    simp

/-- A server that answers 204 with a streamable payload, for the C4
witness. -/
def envStreamOk : Env :=
  { transport := fun _ _ _ => .ok ⟨204, [], "stream me"⟩ }

/-- Witness for C4: with `Stream = true` and a 204 success the body
slice stays nil and the payload is reachable only via the live
handle. -/
theorem body_stream_mutual_exclusivity_witness :
    (makeRequest "GET" "http://s" { stream := true } envStreamOk).1.body = none
    ∧ (makeRequest "GET" "http://s" { stream := true } envStreamOk).1.readCloser
        = .live "stream me" := by
  have h := (body_stream_mutual_exclusivity "GET" "http://s" { stream := true } envStreamOk
    none none [] ⟨204, [], "stream me"⟩ rfl rfl rfl).2 ⟨rfl, by decide, by decide⟩
  exact h

/-- Counterexample for C8: the live `makeRequest` copies the server's
header multimap into the `Response` unchanged, so a server header with
two values under one key keeps both values — it does not keep only the
first value as the claim states. -/
def envMultiValueHeader : Env :=
  { transport := fun _ _ _ => .ok ⟨200, [("K", ["a", "b"])], "x"⟩ }

/-- Counterexample for C8: at a concrete exchange whose server sends
`K: a` and `K: b`, the returned header mapping holds both values under
`K`, not only the first. -/
theorem response_header_first_value_refuted :
    (makeRequest "GET" "http://y" {} envMultiValueHeader).1.header = [("K", ["a", "b"])]
    ∧ [("K", ["a", "b"])] ≠ [("K", ["a"])] := by
  constructor
  · decide
  · decide

/-- Claim C8 (amended): for every completed exchange the `Response`
header mapping is the server's header mapping unchanged — for each key
the full ordered value list is preserved, not only the first value
(first-value-wins holds only through `http.Header`'s `Get` accessor,
which reads the first entry of the preserved list). -/
theorem response_header_kept_verbatim (method url : String)
    (data0 : RequestData) (env : Env) (bp rb0 : Option Bytes)
    (hs : List (String × HeaderValue)) (r : HttpResponse)
    (hprep : prepareBody data0.setDefaultsIfNecessary env = .ok (bp, rb0, hs))
    (herr : (requestLoop data0.setDefaultsIfNecessary env bp rb0 hs).err = none)
    (hresp : (requestLoop data0.setDefaultsIfNecessary env bp rb0 hs).resp = some r) :
    (makeRequest method url data0 env).1.header = r.header := by
  rw [makeRequest_of_prepare_ok method url data0 env bp rb0 hs hprep]
  simp only [classify, herr, hresp]
  split <;> rfl

/-- Witness for C8: the amended statement at the concrete two-valued
header exchange. -/
theorem response_header_kept_verbatim_witness :
    (makeRequest "GET" "http://y" {} envMultiValueHeader).1.header = [("K", ["a", "b"])] :=
  response_header_kept_verbatim "GET" "http://y" {} envMultiValueHeader
    none none [] ⟨200, [("K", ["a", "b"])], "x"⟩ rfl rfl rfl

theorem setDefaults_maxRetries_of_gt (r : RequestData) (h : r.maxRetries > 1) :
    r.setDefaultsIfNecessary.maxRetries = r.maxRetries := by
  show (if r.maxRetries = 0 then 1 else r.maxRetries) = r.maxRetries
  rw [if_neg (by omega)]

/-- Claim C6: a `RequestData` whose body is a single-use byte stream
(`io.Reader`) or a multipart field map, combined with `MaxRetries > 1`,
fails immediately with the configuration error and a zero-valued
`Response`: the transport is never invoked (empty observation trace) and
no retry attempt is made. -/
theorem single_use_body_with_retries_rejected (method url : String)
    (data0 : RequestData) (env : Env) :
    (∀ contents, data0.body = .reader contents → data0.maxRetries > 1 →
      makeRequest method url data0 env = (Response.zero, some .cantRetryReader, []))
    ∧ (∀ fields, data0.body = .fieldMap fields → data0.maxRetries > 1 →
      makeRequest method url data0 env = (Response.zero, some .cantRetryFieldMap, [])) := by
  constructor
  · intro contents hb hmr
    apply makeRequest_of_prepare_err
    have hb2 : data0.setDefaultsIfNecessary.body = .reader contents := by
      rw [setDefaults_body, hb]
    have hm2 : data0.setDefaultsIfNecessary.maxRetries > 1 := by
      rw [setDefaults_maxRetries_of_gt data0 hmr]
      exact hmr
    simp only [prepareBody, hb2]
    rw [if_pos hm2]
  · intro fields hb hmr
    apply makeRequest_of_prepare_err
    have hb2 : data0.setDefaultsIfNecessary.body = .fieldMap fields := by
      rw [setDefaults_body, hb]
    have hm2 : data0.setDefaultsIfNecessary.maxRetries > 1 := by
      rw [setDefaults_maxRetries_of_gt data0 hmr]
      exact hmr
    simp only [prepareBody, hb2]
    rw [if_pos hm2]

/-- Witness for C6: an `io.Reader` body with `MaxRetries = 2` and a
multipart field map with `MaxRetries = 3` are both rejected without any
transport call. -/
theorem single_use_body_with_retries_rejected_witness :
    makeRequest "POST" "http://z" { body := .reader "x", maxRetries := 2 } envBadRequest
      = (Response.zero, some .cantRetryReader, [])
    ∧ makeRequest "POST" "http://z"
        { body := .fieldMap [("f", "x")], maxRetries := 3 } envBadRequest
      = (Response.zero, some .cantRetryFieldMap, []) :=
  ⟨(single_use_body_with_retries_rejected "POST" "http://z"
      { body := .reader "x", maxRetries := 2 } envBadRequest).1 "x" rfl (by norm_num),
   (single_use_body_with_retries_rejected "POST" "http://z"
      { body := .fieldMap [("f", "x")], maxRetries := 3 } envBadRequest).2
      [("f", "x")] rfl (by norm_num)⟩

theorem processHeaders_error_mem :
    ∀ (l : List (String × HeaderValue)) (acc : List (String × List String)) (k tn : String),
      processHeaders acc l = .error (k, tn) → (k, HeaderValue.other tn) ∈ l := by
  intro l
  induction l with
  | nil =>
    intro acc k tn h
    simp [processHeaders] at h
  | cons p rest ih =>
    intro acc k tn h
    match p with
    | (k2, .str v) =>
      simp only [processHeaders] at h
      exact List.mem_cons_of_mem _ (ih _ _ _ h)
    | (k2, .strList vs) =>
      simp only [processHeaders] at h
      exact List.mem_cons_of_mem _ (ih _ _ _ h)
    | (k2, .other tn2) =>
      simp only [processHeaders, Except.error.injEq, Prod.mk.injEq] at h
      obtain ⟨rfl, rfl⟩ := h
      exact List.mem_cons_self _ _

theorem requestLoop_header_error (data : RequestData) (env : Env)
    (bp rb0 : Option Bytes) (hs : List (String × HeaderValue)) (k tn : String)
    (henv : env.buildErr = none)
    (hbad : processHeaders [] hs = .error (k, tn)) :
    (requestLoop data env bp rb0 hs).err = some (.invalidHeader k tn)
    ∧ (requestLoop data env bp rb0 hs).obs = [] := by
  unfold requestLoop Retry
  cases bp with
  | none =>
    have hfst : makeAttempt ⟨none, hs, data.retryRule.getD defaultRetryRuleFn, env⟩
        ⟨rb0, none, none, 0, []⟩
        = (⟨rb0, none, some (.invalidHeader k tn), 0, []⟩, false) := by
      simp [makeAttempt, henv, hbad]
    rw [retryAux_of_first_false _ _ _ _ _ (retry_effective_attempts_pos _) (by rw [hfst])]
    rw [hfst]
    exact ⟨rfl, rfl⟩
  | some p =>
    have hfst : makeAttempt ⟨some p, hs, data.retryRule.getD defaultRetryRuleFn, env⟩
        ⟨rb0, none, none, 0, []⟩
        = (⟨some p, none, some (.invalidHeader k tn), 0, []⟩, false) := by
      simp [makeAttempt, henv, hbad]
    rw [retryAux_of_first_false _ _ _ _ _ (retry_effective_attempts_pos _) (by rw [hfst])]
    rw [hfst]
    exact ⟨rfl, rfl⟩

/-- Claim C7: a header value that is neither a single string nor a list
of strings makes the call return a zero-valued `Response` together with
an error that names the offending key (which is indeed a key of the
header mapping, and the failure aborts the retry loop on its first
attempt with no transport call); a string header value is set as a
single value under the canonicalized key, and a `[]string` value is
attached as the ordered list under the raw key. -/
theorem header_validation :
    (∀ (method url : String) (data0 : RequestData) (env : Env) (bp rb0 : Option Bytes)
       (hs : List (String × HeaderValue)) (k tn : String),
       prepareBody data0.setDefaultsIfNecessary env = .ok (bp, rb0, hs) →
       env.buildErr = none →
       processHeaders [] hs = .error (k, tn) →
       makeRequest method url data0 env = (Response.zero, some (.invalidHeader k tn), [])
         ∧ (k, HeaderValue.other tn) ∈ hs
         ∧ containsStr (Err.text (.invalidHeader k tn)) k)
    ∧ (∀ k v, processHeaders [] [(k, .str v)] = .ok [(canonicalMIMEHeaderKey k, [v])])
    ∧ (∀ k vs, processHeaders [] [(k, .strList vs)] = .ok [(k, vs)]) := by
  refine ⟨?_, ?_, ?_⟩
  · intro method url data0 env bp rb0 hs k tn hprep henv hbad
    have hloop := requestLoop_header_error data0.setDefaultsIfNecessary env bp rb0 hs k tn
      henv hbad
    refine ⟨?_, processHeaders_error_mem hs [] k tn hbad, ?_⟩
    · rw [makeRequest_of_prepare_ok method url data0 env bp rb0 hs hprep]
      have hcls : classify method url data0.setDefaultsIfNecessary.stream
          (requestLoop data0.setDefaultsIfNecessary env bp rb0 hs)
          = (Response.zero, some (.invalidHeader k tn)) := by
        simp only [classify, hloop.1]
      rw [hcls, hloop.2]
    · exact ⟨"header of invalid type received for key " ++ sq, sq ++ ": " ++ tn,
        by simp [Err.text, String.append_assoc]⟩
  · intro k v
    rfl
  · intro k vs
    rfl

/-- Request data with one valid and one invalid header value, used by
the C7 witness. -/
def dataBadHeader : RequestData :=
  { headers := some [("Good", .str "v"), ("badKey", .other "[]interface")] }

/-- Witness for C7: a request whose header map holds a value of an
unsupported type is rejected with the error naming the key, with no
transport call. -/
theorem header_validation_witness :
    makeRequest "GET" "http://y" dataBadHeader envBadRequest
      = (Response.zero, some (.invalidHeader "badKey" "[]interface"), []) :=
  (header_validation.1 "GET" "http://y" dataBadHeader envBadRequest
    none none [("Good", .str "v"), ("badKey", .other "[]interface")]
    "badKey" "[]interface" rfl rfl rfl).1

/-- Claim C2: the compiled chain built by `makeRequestWithMiddlewares`
equals the nested composition in which interceptor 0 wraps a
continuation invoking interceptor 1, down to the terminal executor; an
interceptor that returns without calling `next` short-circuits — the
result does not depend on any later interceptor or on the terminal — and
well-behaved interceptors run first-in, last-out around the terminal. -/
theorem middleware_chain_compilation :
    (∀ (σ : Type) (mws : List (Mw σ)) (terminal : Handler σ),
      makeRequestWithMiddlewares mws terminal = nestedChain mws terminal)
    ∧ (∀ (σ : Type) (pre : List (Mw σ)) (m : Mw σ) (rest rest' : List (Mw σ))
        (terminal terminal' : Handler σ), IgnoresNext m →
      makeRequestWithMiddlewares (pre ++ m :: rest) terminal
        = makeRequestWithMiddlewares (pre ++ m :: rest') terminal')
    ∧ (∀ (names : List String) (method url : String) (data : RequestData)
        (log : List String),
      (makeRequestWithMiddlewares (names.map logMw) logTerminal method url data log).1
        = log ++ names.map (fun n => n ++ ":in") ++ ["terminal"]
            ++ (names.reverse.map (fun n => n ++ ":out"))) := by
  refine ⟨?_, ?_, ?_⟩
  · intro σ mws terminal
    induction mws with
    | nil => rfl
    | cons m rest ih =>
      funext method url data
      show m method url data (makeRequestWithMiddlewares rest terminal)
          = m method url data (nestedChain rest terminal)
      rw [ih]
  · intro σ pre m rest rest' terminal terminal' hm
    induction pre with
    | nil =>
      funext method url data s
      show m method url data (makeRequestWithMiddlewares rest terminal) s
          = m method url data (makeRequestWithMiddlewares rest' terminal') s
      exact hm method url data _ _ s
    | cons q qre ih =>
      funext method url data
      show q method url data (makeRequestWithMiddlewares (qre ++ m :: rest) terminal)
          = q method url data (makeRequestWithMiddlewares (qre ++ m :: rest') terminal')
      rw [ih]
  · intro names
    induction names with
    | nil =>
      intro method url data log
      simp [makeRequestWithMiddlewares, logTerminal]
    | cons n rest ih =>
      intro method url data log
      show (logMw n method url data
        (makeRequestWithMiddlewares (rest.map logMw) logTerminal) log).1 = _
      simp only [logMw]
      rw [ih]
      simp [List.append_assoc]

/-- A middleware that aborts the request without calling `next`, used by
the C2 witness. -/
def abortMw : Mw (List String) :=
  fun _ _ _ _ log => (log ++ ["abort"], Response.zero, some (.transportErr "aborted"))

/-- A terminal executor distinct from `logTerminal`, used by the C2
witness to show the short-circuited chain ignores the downstream
suffix. -/
def otherTerminal : Handler (List String) :=
  fun _ _ _ log => (log ++ ["other"], Response.zero, none)

/-- Witness for C2: a chain headed by a middleware that never calls
`next` is the same function regardless of the downstream middlewares and
terminal, so the logging middleware and both terminals never run. -/
theorem middleware_chain_compilation_witness :
    makeRequestWithMiddlewares ([] ++ abortMw :: [logMw "B"]) logTerminal
      = makeRequestWithMiddlewares ([] ++ abortMw :: []) otherTerminal :=
  middleware_chain_compilation.2.1 (List String) [] abortMw [logMw "B"] []
    logTerminal otherTerminal (fun _ _ _ _ _ _ => rfl)

end Krest
